import Mathlib

/-!
# Peer descriptor compatibility (`p2p/types.go`)

A shallow embedding of `NodeInfo`, `splitVersion`, `NodeInfo.CompatibleWith`,
`NodeInfo.ListenHost` and `NodeInfo.ListenPort` from `p2p/types.go`, followed by
the properties of the compatibility check and of the listen-address accessors.

Go strings and `[]byte` values are finite byte sequences, so both are lists of
bytes.  An `error` built by `fmt.Errorf` is kept as a constructor carrying the
values that are formatted into the message.
-/

set_option autoImplicit false

namespace P2P

/-! ## Data model -/

/-- One byte, the element type of Go strings and of `[]byte`. -/
abbrev Byte := Fin 256

/-- A Go `string`: an immutable sequence of bytes. -/
abbrev GoString := List Byte

/-- The separator byte of the literal `"."` (0x2E). -/
def dot : Byte := 46

/-- The bytes of an ASCII literal; used to write concrete descriptors. -/
def ascii (s : String) : GoString :=
  s.toList.map (fun c => Fin.ofNat c.toNat)

/-- The constant `maxNodeInfoSize` (10Kb). -/
def maxNodeInfoSize : Nat := 10240

/-- The struct `NodeInfo`.  The type `crypto.PubKey` is declared outside this
package and is taken as the parameter `K`. -/
structure NodeInfo (K : Type) where
  PubKey : K
  Moniker : GoString
  Network : GoString
  RemoteAddr : GoString
  ListenAddr : GoString
  Version : GoString
  Channels : List Byte
  Other : List GoString

/-- The errors produced by `fmt.Errorf` in `splitVersion` and `CompatibleWith`,
one constructor per format string, with the formatted arguments in the order
in which the call passes them. -/
inductive CompatError where
  /-- The message "Invalid version format %v". -/
  | invalidVersionFormat (version : GoString)
  /-- The message "Peer is on a different major version. Got %v, expected %v". -/
  | majorVersionMismatch (got expected : GoString)
  /-- The message "Peer is on a different minor version. Got %v, expected %v". -/
  | minorVersionMismatch (got expected : GoString)
  /-- The message "Peer is on a different network. Got %v, expected %v". -/
  | networkMismatch (got expected : GoString)
  /-- The message "Peer has no common channels. Our channels: %v ; Peer channels: %v". -/
  | noCommonChannels (ours theirs : List Byte)
  deriving DecidableEq, Repr

/-! ## Operations -/

/-- The library call `strings.Split(s, sep)` for a one-byte separator: the
substrings of `s` between the occurrences of `sep`, in order.  The result has
one more element than `s` has occurrences of `sep`; the empty string gives one
empty substring. -/
def splitByte (sep : Byte) : GoString → List GoString
  | [] => [[]]
  | c :: cs =>
    if c = sep then [] :: splitByte sep cs
    else
      match splitByte sep cs with
      | [] => [[c]]
      | p :: ps => (c :: p) :: ps

/-- The function `splitVersion`: split on "." and require exactly three parts. -/
def splitVersion (version : GoString) :
    Except CompatError (GoString × GoString × GoString) :=
  match splitByte dot version with
  | [major, minor, patch] => .ok (major, minor, patch)
  | _ => .error (.invalidVersionFormat version)

/-- The inner loop of the channel search: `found` is set when `ch1 == ch2`. -/
def scanTheirs (ch1 : Byte) (theirs : List Byte) (found : Bool) : Bool :=
  theirs.foldl (fun acc ch2 => if ch1 = ch2 then true else acc) found

/-- The nested loops of the channel search, started with `found := false`. -/
def foundCommon (ours theirs : List Byte) : Bool :=
  ours.foldl (fun acc ch1 => scanTheirs ch1 theirs acc) false

/-- The method `(info *NodeInfo) CompatibleWith(other *NodeInfo) error`.
The result `.ok ()` is the `nil` error.  Both receivers are taken to be
non-nil. -/
def CompatibleWith {K : Type} (info other : NodeInfo K) : Except CompatError Unit :=
  let iSplit := splitVersion info.Version
  let oSplit := splitVersion other.Version
  match iSplit with
  | .error iErr => .error iErr
  | .ok (iMajor, iMinor, _) =>
    match oSplit with
    | .error oErr => .error oErr
    | .ok (oMajor, oMinor, _) =>
      if iMajor ≠ oMajor then
        .error (.majorVersionMismatch oMajor iMajor)
      else if iMinor ≠ oMinor then
        .error (.minorVersionMismatch oMinor iMinor)
      else if info.Network ≠ other.Network then
        .error (.networkMismatch other.Network info.Network)
      else if info.Channels.length = 0 then
        .ok ()
      else if ¬ (foundCommon info.Channels other.Channels = true) then
        .error (.noCommonChannels info.Channels other.Channels)
      else
        .ok ()

/-! ### The listen-address accessors

`ListenHost` and `ListenPort` call `net.SplitHostPort` and `strconv.Atoi` of
the Go standard library.  Both calls are embedded here from the library as it
is in current Go releases, where every error of `SplitHostPort` comes with an
empty host and an empty port: `SplitHostPort` with its three results, `Atoi`
as the optional integer that is present exactly when the returned error is
`nil`.  The width of `int` depends on the platform and is the parameter
`intSize`. -/

/-- The byte ':' (0x3A). -/
def colon : Byte := 58

/-- The byte '[' (0x5B). -/
def lbracket : Byte := 91

/-- The byte ']' (0x5D). -/
def rbracket : Byte := 93

/-- The byte '+' (0x2B). -/
def plus : Byte := 43

/-- The byte '-' (0x2D). -/
def minus : Byte := 45

/-- The helper `byteIndex(s, c)` of package `net`: the index of the first
occurrence of `c` in `s`; `none` stands for the result -1. -/
def byteIndex : GoString → Byte → Option Nat
  | [], _ => none
  | c :: cs, b => if c = b then some 0 else (byteIndex cs b).map (fun i => i + 1)

/-- The helper `last(s, b)` of package `net`: the index of the last occurrence
of `b` in `s`; `none` stands for the result -1. -/
def last : GoString → Byte → Option Nat
  | [], _ => none
  | c :: cs, b =>
    match last cs b with
    | some i => some (i + 1)
    | none => if c = b then some 0 else none

/-- The reasons of a `net.AddrError` raised by `SplitHostPort`. -/
inductive AddrErrorKind where
  /-- The text "missing port in address". -/
  | missingPort
  /-- The text "too many colons in address". -/
  | tooManyColons
  /-- The text "missing ']' in address". -/
  | missingRBracket
  /-- The text "unexpected '[' in address". -/
  | unexpectedLBracket
  /-- The text "unexpected ']' in address". -/
  | unexpectedRBracket
  deriving DecidableEq, Repr

/-- The struct `net.AddrError`. -/
structure AddrError where
  Err : AddrErrorKind
  Addr : GoString
  deriving DecidableEq, Repr

/-- The closure `addrErr` of `SplitHostPort`: empty host, empty port and the
error. -/
def addrErr (addr : GoString) (why : AddrErrorKind) :
    GoString × GoString × Option AddrError :=
  ([], [], some ⟨why, addr⟩)

/-- The end of `SplitHostPort`, after `host`, `j` and `k` are set: no '[' from
position `j` on, no ']' from position `k` on, and the port is what follows the
last colon, at index `i`. -/
def splitHostPortCheck (hostport host : GoString) (i j k : Nat) :
    GoString × GoString × Option AddrError :=
  if (byteIndex (hostport.drop j) lbracket).isSome then
    addrErr hostport .unexpectedLBracket
  else if (byteIndex (hostport.drop k) rbracket).isSome then
    addrErr hostport .unexpectedRBracket
  else
    (host, hostport.drop (i + 1), none)

/-- The library call `net.SplitHostPort(hostport)`, with the results
`(host, port, err)`; `none` is the `nil` error. -/
def SplitHostPort (hostport : GoString) : GoString × GoString × Option AddrError :=
  match last hostport colon with
  | none => addrErr hostport .missingPort
  | some i =>
    if hostport.head? = some lbracket then
      match byteIndex hostport rbracket with
      | none => addrErr hostport .missingRBracket
      | some e =>
        if e + 1 = hostport.length then
          addrErr hostport .missingPort
        else if e + 1 = i then
          splitHostPortCheck hostport ((hostport.take e).drop 1) i 1 (e + 1)
        else if hostport[e + 1]? = some colon then
          addrErr hostport .tooManyColons
        else
          addrErr hostport .missingPort
    else
      let host := hostport.take i
      if (byteIndex host colon).isSome then
        addrErr hostport .tooManyColons
      else
        splitHostPortCheck hostport host i 0 0

/-- A decimal digit, '0' to '9'. -/
def isDigit (c : Byte) : Bool :=
  decide (48 ≤ c.val) && decide (c.val ≤ 57)

/-- The digit loop of `strconv.ParseUint` in base 10, without the range test:
`none` when a byte is not a decimal digit. -/
def parseDigits : GoString → Nat → Option Nat
  | [], n => some n
  | c :: cs, n => if isDigit c then parseDigits cs (n * 10 + (c.val - 48)) else none

/-- The library call `strconv.Atoi(s)` for an `int` of `intSize` bits: the
value when the returned error is `nil`, and `none` when it is not.  The text
is an optional sign followed by at least one decimal digit, and the value has
to lie between `-2^(intSize-1)` and `2^(intSize-1) - 1`. -/
def Atoi (intSize : Nat) (s : GoString) : Option Int :=
  match s with
  | [] => none
  | c :: cs =>
    let neg : Bool := decide (c = minus)
    let body : GoString := if c = plus ∨ c = minus then cs else c :: cs
    if body = [] then none
    else
      match parseDigits body 0 with
      | none => none
      | some un =>
        let cutoff : Nat := 2 ^ (intSize - 1)
        if !neg && decide (cutoff ≤ un) then none
        else if neg && decide (cutoff < un) then none
        else some (if neg then -(un : Int) else (un : Int))

/-- The method `(info *NodeInfo) ListenHost() string`: the host result of
`SplitHostPort`, the error being dropped. -/
def ListenHost {K : Type} (info : NodeInfo K) : GoString :=
  (SplitHostPort info.ListenAddr).1

/-- The method `(info *NodeInfo) ListenPort() int`, for an `int` of `intSize`
bits: the port result of `SplitHostPort` is given to `Atoi`, and -1 is
returned when `Atoi` reports an error. -/
def ListenPort {K : Type} (intSize : Nat) (info : NodeInfo K) : Int :=
  let port := (SplitHostPort info.ListenAddr).2.1
  match Atoi intSize port with
  | none => -1
  | some port_i => port_i

/-- The value of a string of decimal digits, most significant digit first. -/
def decimalValue (s : GoString) : Nat :=
  Nat.ofDigits 10 (s.reverse.map (fun c => c.val - 48))

/-- A concrete descriptor with the given version, network and channels over
the key type `Unit`; the fields that the check does not read are empty. -/
def mkInfo (version network : String) (channels : List Byte) : NodeInfo Unit where
  PubKey := ()
  Moniker := []
  Network := ascii network
  RemoteAddr := []
  ListenAddr := []
  Version := ascii version
  Channels := channels
  Other := []

/-- A concrete descriptor with the given listen address. -/
def mkListen (addr : String) : NodeInfo Unit :=
  { mkInfo "1.2.3" "main" [] with ListenAddr := ascii addr }

/-- The version string `major.minor.patch` built from its three components. -/
def dotted (major minor patch : GoString) : GoString :=
  major ++ dot :: (minor ++ dot :: patch)

example : dotted (ascii "1") (ascii "2") (ascii "3") = ascii "1.2.3" := by decide
example : splitByte dot (ascii "1.2.3") = [[49], [50], [51]] := by decide
example : splitByte dot (ascii "") = [[]] := by decide
example : splitByte dot (ascii "1..3") = [[49], [], [51]] := by decide
example : splitByte dot (ascii "abc") = [ascii "abc"] := by decide
example : foundCommon [1, 2, 3] [4, 5, 2] = true := by decide
example : foundCommon [1, 2, 3] [4, 5, 6] = false := by decide
example : SplitHostPort (ascii "10.0.0.1:26656") = (ascii "10.0.0.1", ascii "26656", none) := by
  decide
example : SplitHostPort (ascii "not-an-address")
    = ([], [], some ⟨.missingPort, ascii "not-an-address"⟩) := by decide
example : SplitHostPort (ascii "a:b:c") = ([], [], some ⟨.tooManyColons, ascii "a:b:c"⟩) := by
  decide
example : SplitHostPort (ascii "[::1]:80") = (ascii "::1", ascii "80", none) := by decide
example : SplitHostPort (ascii "[::1]") = ([], [], some ⟨.missingPort, ascii "[::1]"⟩) := by
  decide
example : SplitHostPort (ascii "[::1]x:80")
    = ([], [], some ⟨.missingPort, ascii "[::1]x:80"⟩) := by decide
example : SplitHostPort (ascii "[a]:b:80")
    = ([], [], some ⟨.tooManyColons, ascii "[a]:b:80"⟩) := by decide
example : SplitHostPort (ascii "a[b:80")
    = ([], [], some ⟨.unexpectedLBracket, ascii "a[b:80"⟩) := by decide
example : SplitHostPort (ascii "a]b:80")
    = ([], [], some ⟨.unexpectedRBracket, ascii "a]b:80"⟩) := by decide
example : SplitHostPort (ascii ":80") = ([], ascii "80", none) := by decide
example : SplitHostPort (ascii "host:") = (ascii "host", [], none) := by decide
example : Atoi 64 (ascii "26656") = some 26656 := by decide
example : Atoi 64 (ascii "-1") = some (-1) := by decide
example : Atoi 64 (ascii "+7") = some 7 := by decide
example : Atoi 64 (ascii "") = none := by decide
example : Atoi 64 (ascii "-") = none := by decide
example : Atoi 64 (ascii "8o") = none := by decide
example : Atoi 64 (ascii "9223372036854775807") = some 9223372036854775807 := by decide
example : Atoi 64 (ascii "9223372036854775808") = none := by decide
example : Atoi 64 (ascii "-9223372036854775808") = some (-9223372036854775808) := by decide
example : Atoi 32 (ascii "2147483648") = none := by decide
example : decimalValue (ascii "26656") = 26656 := by decide
example : ListenHost (mkListen "10.0.0.1:26656") = ascii "10.0.0.1" := by decide
example : ListenPort 64 (mkListen "10.0.0.1:26656") = 26656 := by decide
example : ListenPort 64 (mkListen "not-an-address") = -1 := by decide

/-! ## Lemmas on splitting -/

theorem splitByte_ne_nil (sep : Byte) (s : GoString) : splitByte sep s ≠ [] := by
  induction s with
  | nil => simp [splitByte]
  | cons c cs ih =>
    unfold splitByte
    split
    · simp
    · split
      · simp
      · simp

theorem splitByte_cons_ne (sep c : Byte) (cs : GoString) (h : c ≠ sep) :
    ∃ p ps, splitByte sep cs = p :: ps ∧ splitByte sep (c :: cs) = (c :: p) :: ps := by
  cases hs : splitByte sep cs with
  | nil => exact absurd hs (splitByte_ne_nil sep cs)
  | cons p ps => exact ⟨p, ps, rfl, by simp [splitByte, h, hs]⟩

/-- A split has one more part than the string has separators. -/
theorem splitByte_length (sep : Byte) (s : GoString) :
    (splitByte sep s).length = s.count sep + 1 := by
  induction s with
  | nil => simp [splitByte]
  | cons c cs ih =>
    by_cases hc : c = sep
    · subst hc
      simp [splitByte, ih]
    · obtain ⟨p, ps, hp, hq⟩ := splitByte_cons_ne sep c cs hc
      rw [hq, List.count_cons_of_ne (Ne.symm hc), ← ih, hp]
      rfl

/-- A separator-free prefix followed by the separator is the first part. -/
theorem splitByte_append_sep (sep : Byte) (a rest : GoString) (ha : sep ∉ a) :
    splitByte sep (a ++ sep :: rest) = a :: splitByte sep rest := by
  induction a with
  | nil => simp [splitByte]
  | cons c cs ih =>
    have hc : c ≠ sep := fun h => ha (by simp [h])
    have hcs : sep ∉ cs := fun h => ha (by simp [h])
    obtain ⟨p, ps, hp, hq⟩ := splitByte_cons_ne sep c (cs ++ sep :: rest) hc
    rw [List.cons_append, hq]
    rw [ih hcs] at hp
    cases hp
    rfl

/-- A separator-free string is its own single part. -/
theorem splitByte_sep_free (sep : Byte) (a : GoString) (ha : sep ∉ a) :
    splitByte sep a = [a] := by
  induction a with
  | nil => simp [splitByte]
  | cons c cs ih =>
    have hc : c ≠ sep := fun h => ha (by simp [h])
    have hcs : sep ∉ cs := fun h => ha (by simp [h])
    obtain ⟨p, ps, hp, hq⟩ := splitByte_cons_ne sep c cs hc
    rw [hq]
    rw [ih hcs] at hp
    cases hp
    rfl

/-- No part of a split contains the separator. -/
theorem splitByte_parts_sep_free (sep : Byte) (s : GoString) :
    ∀ p ∈ splitByte sep s, sep ∉ p := by
  induction s with
  | nil => simp [splitByte]
  | cons c cs ih =>
    by_cases hc : c = sep
    · intro p hp
      simp only [splitByte, hc, if_true, List.mem_cons] at hp
      rcases hp with rfl | hp
      · simp
      · exact ih p hp
    · obtain ⟨q, qs, hq, hq2⟩ := splitByte_cons_ne sep c cs hc
      intro p hp
      rw [hq2, List.mem_cons] at hp
      rw [hq] at ih
      rcases hp with rfl | hp
      · intro hmem
        rcases List.mem_cons.mp hmem with h | h
        · exact hc h.symm
        · exact ih q (by simp) h
      · exact ih p (by simp [hp])

/-- The parts of a split, joined by the separator, give the string back. -/
theorem splitByte_join (sep : Byte) (s : GoString) :
    List.intercalate [sep] (splitByte sep s) = s := by
  induction s with
  | nil => simp [splitByte, List.intercalate]
  | cons c cs ih =>
    by_cases hc : c = sep
    · cases hs : splitByte sep cs with
      | nil => exact absurd hs (splitByte_ne_nil sep cs)
      | cons p ps =>
        rw [hs] at ih
        simp only [splitByte, hc, if_true, hs]
        simp only [List.intercalate, List.intersperse, List.flatten, List.nil_append,
          List.singleton_append] at ih ⊢
        rw [ih]
    · obtain ⟨q, qs, hq, hq2⟩ := splitByte_cons_ne sep c cs hc
      rw [hq2]
      rw [hq] at ih
      cases qs with
      | nil =>
        simp only [List.intercalate, List.intersperse, List.flatten, List.append_nil] at ih ⊢
        rw [ih]
      | cons q2 qs2 =>
        simp only [List.intercalate, List.intersperse, List.flatten, List.cons_append] at ih ⊢
        rw [ih]

/-- A version with the three parts `a`, `b`, `c` is `a.b.c`. -/
theorem eq_of_splitByte_three (v a b c : GoString) (h : splitByte dot v = [a, b, c]) :
    v = a ++ dot :: (b ++ dot :: c) := by
  have hj := splitByte_join dot v
  rw [h] at hj
  simpa [List.intercalate, List.intersperse, List.flatten] using hj.symm

/-- Three separator-free strings joined by "." split back into themselves. -/
theorem splitByte_three (a b c : GoString) (ha : dot ∉ a) (hb : dot ∉ b) (hc : dot ∉ c) :
    splitByte dot (a ++ dot :: (b ++ dot :: c)) = [a, b, c] := by
  rw [splitByte_append_sep dot a _ ha, splitByte_append_sep dot b _ hb,
    splitByte_sep_free dot c hc]

theorem length_three {α : Type} (xs : List α) (h : xs.length = 3) :
    ∃ a b c, xs = [a, b, c] := by
  match xs, h with
  | [a, b, c], _ => exact ⟨a, b, c, rfl⟩

theorem splitVersion_of_three (v a b c : GoString) (h : splitByte dot v = [a, b, c]) :
    splitVersion v = .ok (a, b, c) := by
  simp [splitVersion, h]

theorem splitVersion_of_length_ne (v : GoString) (h : (splitByte dot v).length ≠ 3) :
    splitVersion v = .error (.invalidVersionFormat v) := by
  unfold splitVersion
  split
  · rename_i heq
    simp [heq] at h
  · rfl

/-! ## Lemmas on the channel search -/

theorem scanTheirs_eq (ch1 : Byte) (theirs : List Byte) (found : Bool) :
    scanTheirs ch1 theirs found = (found || decide (ch1 ∈ theirs)) := by
  unfold scanTheirs
  induction theirs generalizing found with
  | nil => simp
  | cons t ts ih =>
    rw [List.foldl_cons, ih]
    by_cases h : ch1 = t
    · simp [h]
    · simp [h]

theorem foldl_scanTheirs_eq (ours theirs : List Byte) (found : Bool) :
    ours.foldl (fun acc ch1 => scanTheirs ch1 theirs acc) found
      = (found || ours.any (fun ch1 => decide (ch1 ∈ theirs))) := by
  induction ours generalizing found with
  | nil => simp
  | cons o os ih =>
    rw [List.foldl_cons, ih, scanTheirs_eq]
    simp [Bool.or_assoc]

/-- The nested loops find a channel exactly when the two lists share an id. -/
theorem foundCommon_iff (ours theirs : List Byte) :
    foundCommon ours theirs = true ↔ ∃ c, c ∈ ours ∧ c ∈ theirs := by
  unfold foundCommon
  rw [foldl_scanTheirs_eq]
  simp

/-! ## The check on descriptors with well-formed versions -/

/-- With both versions split into three parts, the check is the chain of
comparisons on the first two parts, the networks and the channels. -/
theorem CompatibleWith_of_three {K : Type} (l r : NodeInfo K)
    (a b c a2 b2 c2 : GoString)
    (hl : splitByte dot l.Version = [a, b, c])
    (hr : splitByte dot r.Version = [a2, b2, c2]) :
    CompatibleWith l r =
      if a ≠ a2 then .error (.majorVersionMismatch a2 a)
      else if b ≠ b2 then .error (.minorVersionMismatch b2 b)
      else if l.Network ≠ r.Network then .error (.networkMismatch r.Network l.Network)
      else if l.Channels.length = 0 then .ok ()
      else if ¬ (foundCommon l.Channels r.Channels = true) then
        .error (.noCommonChannels l.Channels r.Channels)
      else .ok () := by
  simp only [CompatibleWith, splitVersion_of_three _ _ _ _ hl, splitVersion_of_three _ _ _ _ hr]

theorem CompatibleWith_local_malformed {K : Type} (l r : NodeInfo K)
    (h : (splitByte dot l.Version).length ≠ 3) :
    CompatibleWith l r = .error (.invalidVersionFormat l.Version) := by
  simp only [CompatibleWith, splitVersion_of_length_ne _ h]

theorem CompatibleWith_remote_malformed {K : Type} (l r : NodeInfo K)
    (hl : (splitByte dot l.Version).length = 3)
    (hr : (splitByte dot r.Version).length ≠ 3) :
    CompatibleWith l r = .error (.invalidVersionFormat r.Version) := by
  obtain ⟨a, b, c, hs⟩ := length_three _ hl
  simp only [CompatibleWith, splitVersion_of_three _ _ _ _ hs, splitVersion_of_length_ne _ hr]

/-- The accepting runs of the check, as a conjunction of conditions. -/
theorem compatible_iff {K : Type} (l r : NodeInfo K) :
    CompatibleWith l r = .ok () ↔
      ((splitByte dot l.Version).length = 3 ∧
       (splitByte dot r.Version).length = 3 ∧
       (splitByte dot l.Version)[0]? = (splitByte dot r.Version)[0]? ∧
       (splitByte dot l.Version)[1]? = (splitByte dot r.Version)[1]? ∧
       l.Network = r.Network ∧
       (l.Channels = [] ∨ ∃ c, c ∈ l.Channels ∧ c ∈ r.Channels)) := by
  by_cases hl : (splitByte dot l.Version).length = 3
  · by_cases hr : (splitByte dot r.Version).length = 3
    · obtain ⟨a, b, c, hls⟩ := length_three _ hl
      obtain ⟨a2, b2, c2, hrs⟩ := length_three _ hr
      rw [CompatibleWith_of_three l r _ _ _ _ _ _ hls hrs, hls, hrs]
      rw [← foundCommon_iff]
      by_cases h1 : a = a2 <;> by_cases h2 : b = b2 <;>
        by_cases h3 : l.Network = r.Network <;> by_cases h4 : l.Channels = [] <;>
        by_cases h5 : foundCommon l.Channels r.Channels = true <;>
        simp [h1, h2, h3, h4, h5]
    · rw [CompatibleWith_remote_malformed l r hl hr]
      simp [hr]
  · rw [CompatibleWith_local_malformed l r hl]
    simp [hl]

/-- The split behind a successful `splitVersion`. -/
theorem splitByte_of_splitVersion (v a b c : GoString)
    (h : splitVersion v = .ok (a, b, c)) : splitByte dot v = [a, b, c] := by
  unfold splitVersion at h
  split at h
  · rename_i x y z heq
    simp only [Except.ok.injEq, Prod.mk.injEq] at h
    obtain ⟨rfl, rfl, rfl⟩ := h
    exact heq
  · simp at h

/-- Lists with the same elements are empty together. -/
theorem eq_nil_iff_of_mem_iff (xs ys : List Byte) (h : ∀ c, c ∈ xs ↔ c ∈ ys) :
    xs = [] ↔ ys = [] := by
  constructor
  · intro hx
    subst hx
    exact List.eq_nil_iff_forall_not_mem.mpr (fun c hc => by simpa using (h c).mpr hc)
  · intro hy
    subst hy
    exact List.eq_nil_iff_forall_not_mem.mpr (fun c hc => by simpa using (h c).mp hc)

/-! ## Properties of `CompatibleWith` -/

/-- C1: `local.CompatibleWith(remote)` returns no error if and only if both
versions split on "." into exactly three components, the first components are
equal, the second components are equal, the networks are equal, and either
`local.Channels` is empty or some channel id occurs in both channel lists.  The
outcome is the conjunction of these checks, so it does not depend on the order
in which they are evaluated. -/
theorem CompatibleWith_ok_iff {K : Type} (l r : NodeInfo K) :
    CompatibleWith l r = .ok () ↔
      ((splitByte dot l.Version).length = 3 ∧
       (splitByte dot r.Version).length = 3 ∧
       (splitByte dot l.Version)[0]? = (splitByte dot r.Version)[0]? ∧
       (splitByte dot l.Version)[1]? = (splitByte dot r.Version)[1]? ∧
       l.Network = r.Network ∧
       (l.Channels = [] ∨ ∃ c, c ∈ l.Channels ∧ c ∈ r.Channels)) :=
  compatible_iff l r

/-- C2: a descriptor whose version has exactly three dot-separated components
and whose channel list is non-empty is compatible with itself. -/
theorem CompatibleWith_self {K : Type} (A : NodeInfo K)
    (hv : (splitByte dot A.Version).length = 3) (hc : A.Channels ≠ []) :
    CompatibleWith A A = .ok () := by
  rw [compatible_iff]
  refine ⟨hv, hv, rfl, rfl, rfl, Or.inr ?_⟩
  cases hch : A.Channels with
  | nil => exact absurd hch hc
  | cons x xs => exact ⟨x, by simp, by simp⟩

theorem CompatibleWith_self_witness :
    (splitByte dot (mkInfo "1.2.3" "testnet" [1, 2, 3]).Version).length = 3 ∧
    (mkInfo "1.2.3" "testnet" [1, 2, 3]).Channels ≠ [] ∧
    CompatibleWith (mkInfo "1.2.3" "testnet" [1, 2, 3]) (mkInfo "1.2.3" "testnet" [1, 2, 3])
      = .ok () :=
  ⟨by decide, by decide,
    CompatibleWith_self (mkInfo "1.2.3" "testnet" [1, 2, 3]) (by decide) (by decide)⟩

/-- C3: when `local.Version` does not split into exactly three dot-separated
components, the check returns the version-format error carrying
`local.Version`, whatever the other fields of either descriptor are, also when
`remote.Version` is malformed too. -/
theorem CompatibleWith_local_version_format {K : Type} (l r : NodeInfo K)
    (h : (splitByte dot l.Version).length ≠ 3) :
    CompatibleWith l r = .error (.invalidVersionFormat l.Version) :=
  CompatibleWith_local_malformed l r h

theorem CompatibleWith_local_version_format_witness :
    (splitByte dot (mkInfo "abc" "main" [1]).Version).length ≠ 3 ∧
    CompatibleWith (mkInfo "abc" "main" [1]) (mkInfo "x.y" "other" [7])
      = .error (.invalidVersionFormat (ascii "abc")) :=
  ⟨by decide,
    CompatibleWith_local_version_format (mkInfo "abc" "main" [1]) (mkInfo "x.y" "other" [7])
      (by decide)⟩

/-- C4: when `local.Version` splits into exactly three dot-separated components
and `remote.Version` does not, the check returns the version-format error
carrying `remote.Version`, whatever the networks and channels are. -/
theorem CompatibleWith_remote_version_format {K : Type} (l r : NodeInfo K)
    (hl : (splitByte dot l.Version).length = 3)
    (hr : (splitByte dot r.Version).length ≠ 3) :
    CompatibleWith l r = .error (.invalidVersionFormat r.Version) :=
  CompatibleWith_remote_malformed l r hl hr

theorem CompatibleWith_remote_version_format_witness :
    (splitByte dot (mkInfo "1.2.3" "main" [1]).Version).length = 3 ∧
    (splitByte dot (mkInfo "1.2.3.4" "other" []).Version).length ≠ 3 ∧
    CompatibleWith (mkInfo "1.2.3" "main" [1]) (mkInfo "1.2.3.4" "other" [])
      = .error (.invalidVersionFormat (ascii "1.2.3.4")) :=
  ⟨by decide, by decide,
    CompatibleWith_remote_version_format (mkInfo "1.2.3" "main" [1])
      (mkInfo "1.2.3.4" "other" []) (by decide) (by decide)⟩

/-- C5, as the claim states it, fails: "1..3" has three dot-separated
components of which the second is empty, and the check accepts it as the local
version; as the remote version next to the local "1.2.3" it is rejected by the
comparison of the second components, not by the version format. -/
theorem CompatibleWith_empty_component_accepted :
    ((splitByte dot (ascii "1..3")).length = 3 ∧ [] ∈ splitByte dot (ascii "1..3")) ∧
    CompatibleWith (mkInfo "1..3" "main" [1]) (mkInfo "1..3" "main" [1]) = .ok () ∧
    CompatibleWith (mkInfo "1.2.3" "main" [1]) (mkInfo "1..3" "main" [1])
      = .error (.minorVersionMismatch [] (ascii "2")) :=
  ⟨⟨by decide, by decide⟩, rfl, rfl⟩

/-- C5, amended: for every version string whose number of dot-separated
components is not three (too few or too many), the check fails with the
version-format error carrying that string whenever it is the version of the
local descriptor, and whenever it is the version of the remote descriptor
while the local version has exactly three components. -/
theorem CompatibleWith_component_count {K : Type} (v : GoString) (l r : NodeInfo K)
    (hv : (splitByte dot v).length ≠ 3) :
    (l.Version = v → CompatibleWith l r = .error (.invalidVersionFormat v)) ∧
    (r.Version = v → (splitByte dot l.Version).length = 3 →
      CompatibleWith l r = .error (.invalidVersionFormat v)) := by
  constructor
  · intro h
    subst h
    exact CompatibleWith_local_malformed l r hv
  · intro h hl
    subst h
    exact CompatibleWith_remote_malformed l r hl hv

theorem CompatibleWith_component_count_witness :
    (splitByte dot (ascii "1.2")).length ≠ 3 ∧
    CompatibleWith (mkInfo "1.2" "main" [1]) (mkInfo "1.2.3" "main" [1])
      = .error (.invalidVersionFormat (ascii "1.2")) ∧
    CompatibleWith (mkInfo "1.2.3" "main" [1]) (mkInfo "1.2" "main" [1])
      = .error (.invalidVersionFormat (ascii "1.2")) :=
  ⟨by decide,
    (CompatibleWith_component_count (ascii "1.2") (mkInfo "1.2" "main" [1])
      (mkInfo "1.2.3" "main" [1]) (by decide)).1 rfl,
    (CompatibleWith_component_count (ascii "1.2") (mkInfo "1.2.3" "main" [1])
      (mkInfo "1.2" "main" [1]) (by decide)).2 rfl (by decide)⟩

/-- C6: when both versions have exactly three dot-separated components and the
first (major) components differ, the check returns the major-version-mismatch
error with got = the remote major component and expected = the local one,
whatever the minor components, networks and channels are. -/
theorem CompatibleWith_major_mismatch {K : Type} (l r : NodeInfo K)
    (iMajor iMinor iPatch oMajor oMinor oPatch : GoString)
    (hl : splitByte dot l.Version = [iMajor, iMinor, iPatch])
    (hr : splitByte dot r.Version = [oMajor, oMinor, oPatch])
    (hne : iMajor ≠ oMajor) :
    CompatibleWith l r = .error (.majorVersionMismatch oMajor iMajor) := by
  rw [CompatibleWith_of_three l r _ _ _ _ _ _ hl hr, if_pos hne]

theorem CompatibleWith_major_mismatch_witness :
    splitByte dot (mkInfo "1.2.3" "main" [1]).Version = [ascii "1", ascii "2", ascii "3"] ∧
    splitByte dot (mkInfo "2.2.3" "other" [7]).Version = [ascii "2", ascii "2", ascii "3"] ∧
    ascii "1" ≠ ascii "2" ∧
    CompatibleWith (mkInfo "1.2.3" "main" [1]) (mkInfo "2.2.3" "other" [7])
      = .error (.majorVersionMismatch (ascii "2") (ascii "1")) :=
  ⟨by decide, by decide, by decide,
    CompatibleWith_major_mismatch (mkInfo "1.2.3" "main" [1]) (mkInfo "2.2.3" "other" [7])
      (ascii "1") (ascii "2") (ascii "3") (ascii "2") (ascii "2") (ascii "3")
      (by decide) (by decide) (by decide)⟩

/-- C7: when both versions have exactly three dot-separated components, the
major components are equal and the second (minor) components differ, the check
returns the minor-version-mismatch error with got = the remote minor component
and expected = the local one, whatever the networks and channels are. -/
theorem CompatibleWith_minor_mismatch {K : Type} (l r : NodeInfo K)
    (major iMinor iPatch oMinor oPatch : GoString)
    (hl : splitByte dot l.Version = [major, iMinor, iPatch])
    (hr : splitByte dot r.Version = [major, oMinor, oPatch])
    (hne : iMinor ≠ oMinor) :
    CompatibleWith l r = .error (.minorVersionMismatch oMinor iMinor) := by
  rw [CompatibleWith_of_three l r _ _ _ _ _ _ hl hr, if_neg (not_not.mpr rfl), if_pos hne]

theorem CompatibleWith_minor_mismatch_witness :
    splitByte dot (mkInfo "1.2.3" "main" [1]).Version = [ascii "1", ascii "2", ascii "3"] ∧
    splitByte dot (mkInfo "1.3.3" "other" [7]).Version = [ascii "1", ascii "3", ascii "3"] ∧
    ascii "2" ≠ ascii "3" ∧
    CompatibleWith (mkInfo "1.2.3" "main" [1]) (mkInfo "1.3.3" "other" [7])
      = .error (.minorVersionMismatch (ascii "3") (ascii "2")) :=
  ⟨by decide, by decide, by decide,
    CompatibleWith_minor_mismatch (mkInfo "1.2.3" "main" [1]) (mkInfo "1.3.3" "other" [7])
      (ascii "1") (ascii "2") (ascii "3") (ascii "3") (ascii "3")
      (by decide) (by decide) (by decide)⟩

/-- C8: the patch component is never compared.  For descriptors whose versions
are `a.b.c` and `a2.b2.c2` (components free of "."), replacing the third
component of the local version, of the remote version, or of both, by any
strings free of "." leaves the result of the check unchanged: the same success
or the same error with the same reported values. -/
theorem CompatibleWith_patch_ignored {K : Type} (l r : NodeInfo K)
    (a b c a2 b2 c2 p p2 : GoString)
    (ha : dot ∉ a) (hb : dot ∉ b) (hc : dot ∉ c)
    (ha2 : dot ∉ a2) (hb2 : dot ∉ b2) (hc2 : dot ∉ c2)
    (hl : l.Version = dotted a b c) (hr : r.Version = dotted a2 b2 c2)
    (hp : dot ∉ p) (hp2 : dot ∉ p2) :
    CompatibleWith { l with Version := dotted a b p } r = CompatibleWith l r ∧
    CompatibleWith l { r with Version := dotted a2 b2 p2 } = CompatibleWith l r ∧
    CompatibleWith { l with Version := dotted a b p } { r with Version := dotted a2 b2 p2 }
      = CompatibleWith l r := by
  have hls : splitByte dot l.Version = [a, b, c] := by
    rw [hl]; exact splitByte_three a b c ha hb hc
  have hrs : splitByte dot r.Version = [a2, b2, c2] := by
    rw [hr]; exact splitByte_three a2 b2 c2 ha2 hb2 hc2
  have hls2 : splitByte dot (dotted a b p) = [a, b, p] := splitByte_three a b p ha hb hp
  have hrs2 : splitByte dot (dotted a2 b2 p2) = [a2, b2, p2] :=
    splitByte_three a2 b2 p2 ha2 hb2 hp2
  refine ⟨?_, ?_, ?_⟩
  · rw [CompatibleWith_of_three l r _ _ _ _ _ _ hls hrs,
      CompatibleWith_of_three { l with Version := dotted a b p } r _ _ _ _ _ _ hls2 hrs]
  · rw [CompatibleWith_of_three l r _ _ _ _ _ _ hls hrs,
      CompatibleWith_of_three l { r with Version := dotted a2 b2 p2 } _ _ _ _ _ _ hls hrs2]
  · rw [CompatibleWith_of_three l r _ _ _ _ _ _ hls hrs,
      CompatibleWith_of_three { l with Version := dotted a b p }
        { r with Version := dotted a2 b2 p2 } _ _ _ _ _ _ hls2 hrs2]

theorem CompatibleWith_patch_ignored_witness :
    (dot ∉ ascii "1" ∧ dot ∉ ascii "2" ∧ dot ∉ ascii "3") ∧
    (dot ∉ ascii "1" ∧ dot ∉ ascii "4" ∧ dot ∉ ascii "9") ∧
    (mkInfo "1.2.3" "main" [1, 2, 3]).Version = dotted (ascii "1") (ascii "2") (ascii "3") ∧
    (mkInfo "1.4.9" "main" [4, 5, 2]).Version = dotted (ascii "1") (ascii "4") (ascii "9") ∧
    (dot ∉ ascii "77" ∧ dot ∉ ascii "") ∧
    CompatibleWith
        { mkInfo "1.2.3" "main" [1, 2, 3] with
          Version := dotted (ascii "1") (ascii "2") (ascii "77") }
        { mkInfo "1.4.9" "main" [4, 5, 2] with
          Version := dotted (ascii "1") (ascii "4") (ascii "") }
      = CompatibleWith (mkInfo "1.2.3" "main" [1, 2, 3]) (mkInfo "1.4.9" "main" [4, 5, 2]) ∧
    CompatibleWith (mkInfo "1.2.3" "main" [1, 2, 3]) (mkInfo "1.4.9" "main" [4, 5, 2])
      = .error (.minorVersionMismatch (ascii "4") (ascii "2")) :=
  ⟨by decide, by decide, by decide, by decide, by decide,
    (CompatibleWith_patch_ignored (mkInfo "1.2.3" "main" [1, 2, 3])
      (mkInfo "1.4.9" "main" [4, 5, 2])
      (ascii "1") (ascii "2") (ascii "3") (ascii "1") (ascii "4") (ascii "9")
      (ascii "77") (ascii "")
      (by decide) (by decide) (by decide) (by decide) (by decide) (by decide)
      (by decide) (by decide) (by decide) (by decide)).2.2,
    rfl⟩

/-- C9: when both versions are well formed with equal major and equal minor
components and `local.Network` is not the same string as `remote.Network`, the
check returns the network-mismatch error with got = `remote.Network` and
expected = `local.Network`, whatever the channels of either side are, also
when `local.Channels` is empty. -/
theorem CompatibleWith_network_mismatch {K : Type} (l r : NodeInfo K)
    (major minor iPatch oPatch : GoString)
    (hl : splitByte dot l.Version = [major, minor, iPatch])
    (hr : splitByte dot r.Version = [major, minor, oPatch])
    (hne : l.Network ≠ r.Network) :
    CompatibleWith l r = .error (.networkMismatch r.Network l.Network) := by
  rw [CompatibleWith_of_three l r _ _ _ _ _ _ hl hr, if_neg (not_not.mpr rfl),
    if_neg (not_not.mpr rfl), if_pos hne]

theorem CompatibleWith_network_mismatch_witness :
    splitByte dot (mkInfo "1.2.3" "main" []).Version = [ascii "1", ascii "2", ascii "3"] ∧
    splitByte dot (mkInfo "1.2.9" "Main" [7]).Version = [ascii "1", ascii "2", ascii "9"] ∧
    (mkInfo "1.2.3" "main" []).Network ≠ (mkInfo "1.2.9" "Main" [7]).Network ∧
    CompatibleWith (mkInfo "1.2.3" "main" []) (mkInfo "1.2.9" "Main" [7])
      = .error (.networkMismatch (ascii "Main") (ascii "main")) :=
  ⟨by decide, by decide, by decide,
    CompatibleWith_network_mismatch (mkInfo "1.2.3" "main" []) (mkInfo "1.2.9" "Main" [7])
      (ascii "1") (ascii "2") (ascii "3") (ascii "9") (by decide) (by decide) (by decide)⟩

/-- C10: when both versions are well formed with matching major and minor
components, the networks are equal and `local.Channels` is empty, the check
returns no error, whatever `remote.Channels` is. -/
theorem CompatibleWith_no_local_channels {K : Type} (l r : NodeInfo K)
    (major minor iPatch oPatch : GoString)
    (hl : splitByte dot l.Version = [major, minor, iPatch])
    (hr : splitByte dot r.Version = [major, minor, oPatch])
    (hnet : l.Network = r.Network) (hch : l.Channels = []) :
    CompatibleWith l r = .ok () := by
  rw [CompatibleWith_of_three l r _ _ _ _ _ _ hl hr, if_neg (not_not.mpr rfl),
    if_neg (not_not.mpr rfl), if_neg (not_not.mpr hnet), if_pos (by rw [hch]; rfl)]

theorem CompatibleWith_no_local_channels_witness :
    splitByte dot (mkInfo "1.2.3" "main" []).Version = [ascii "1", ascii "2", ascii "3"] ∧
    splitByte dot (mkInfo "1.2.9" "main" [9, 9, 9]).Version
      = [ascii "1", ascii "2", ascii "9"] ∧
    (mkInfo "1.2.3" "main" []).Network = (mkInfo "1.2.9" "main" [9, 9, 9]).Network ∧
    (mkInfo "1.2.3" "main" []).Channels = [] ∧
    CompatibleWith (mkInfo "1.2.3" "main" []) (mkInfo "1.2.9" "main" [9, 9, 9]) = .ok () :=
  ⟨by decide, by decide, by decide, by decide,
    CompatibleWith_no_local_channels (mkInfo "1.2.3" "main" []) (mkInfo "1.2.9" "main" [9, 9, 9])
      (ascii "1") (ascii "2") (ascii "3") (ascii "9")
      (by decide) (by decide) (by decide) (by decide)⟩

/-- C11: when both versions are well formed with matching major and minor
components, the networks are equal and `local.Channels` is non-empty, the check
returns no error if some channel id is an element of both channel lists, and
otherwise returns the no-common-channels error carrying exactly
`local.Channels` and `remote.Channels`. -/
theorem CompatibleWith_channels {K : Type} (l r : NodeInfo K)
    (major minor iPatch oPatch : GoString)
    (hl : splitByte dot l.Version = [major, minor, iPatch])
    (hr : splitByte dot r.Version = [major, minor, oPatch])
    (hnet : l.Network = r.Network) (hch : l.Channels ≠ []) :
    ((∃ c, c ∈ l.Channels ∧ c ∈ r.Channels) → CompatibleWith l r = .ok ()) ∧
    ((¬ ∃ c, c ∈ l.Channels ∧ c ∈ r.Channels) →
      CompatibleWith l r = .error (.noCommonChannels l.Channels r.Channels)) := by
  have hlen : ¬ l.Channels.length = 0 := fun h => hch (List.length_eq_zero.mp h)
  rw [CompatibleWith_of_three l r _ _ _ _ _ _ hl hr, if_neg (not_not.mpr rfl),
    if_neg (not_not.mpr rfl), if_neg (not_not.mpr hnet), if_neg hlen]
  constructor
  · intro h
    rw [if_neg (not_not.mpr ((foundCommon_iff _ _).mpr h))]
  · intro h
    rw [if_pos (fun hf => h ((foundCommon_iff _ _).mp hf))]

theorem CompatibleWith_channels_witness :
    CompatibleWith (mkInfo "1.2.3" "main" [1, 2, 3]) (mkInfo "1.2.3" "main" [4, 5, 2])
      = .ok () ∧
    CompatibleWith (mkInfo "1.2.3" "main" [1, 2, 3]) (mkInfo "1.2.3" "main" [4, 5, 6])
      = .error (.noCommonChannels [1, 2, 3] [4, 5, 6]) ∧
    CompatibleWith (mkInfo "1.2.3" "main" [1, 2, 3]) (mkInfo "1.2.3" "main" [])
      = .error (.noCommonChannels [1, 2, 3] []) :=
  ⟨(CompatibleWith_channels (mkInfo "1.2.3" "main" [1, 2, 3]) (mkInfo "1.2.3" "main" [4, 5, 2])
      (ascii "1") (ascii "2") (ascii "3") (ascii "3")
      (by decide) (by decide) (by decide) (by decide)).1 ⟨2, by decide, by decide⟩,
   (CompatibleWith_channels (mkInfo "1.2.3" "main" [1, 2, 3]) (mkInfo "1.2.3" "main" [4, 5, 6])
      (ascii "1") (ascii "2") (ascii "3") (ascii "3")
      (by decide) (by decide) (by decide) (by decide)).2 (by decide),
   (CompatibleWith_channels (mkInfo "1.2.3" "main" [1, 2, 3]) (mkInfo "1.2.3" "main" [])
      (ascii "1") (ascii "2") (ascii "3") (ascii "3")
      (by decide) (by decide) (by decide) (by decide)).2 (by decide)⟩

/-- C12: channels are treated as sets.  For descriptors that agree pairwise on
version and network (`l` with `l2`, `r` with `r2`) and whose channel lists
contain the same ids (differing only in order and duplicates), the check of
`l` against `r` succeeds if and only if the check of `l2` against `r2`
succeeds. -/
theorem CompatibleWith_channels_as_sets {K : Type} (l l2 r r2 : NodeInfo K)
    (hlv : l.Version = l2.Version) (hln : l.Network = l2.Network)
    (hrv : r.Version = r2.Version) (hrn : r.Network = r2.Network)
    (hlc : ∀ c, c ∈ l.Channels ↔ c ∈ l2.Channels)
    (hrc : ∀ c, c ∈ r.Channels ↔ c ∈ r2.Channels) :
    CompatibleWith l r = .ok () ↔ CompatibleWith l2 r2 = .ok () := by
  rw [compatible_iff, compatible_iff, ← hlv, ← hrv, ← hln, ← hrn,
    eq_nil_iff_of_mem_iff _ _ hlc]
  have hex : (∃ c, c ∈ l.Channels ∧ c ∈ r.Channels) ↔
      (∃ c, c ∈ l2.Channels ∧ c ∈ r2.Channels) :=
    exists_congr (fun c => and_congr (hlc c) (hrc c))
  rw [hex]

theorem CompatibleWith_channels_as_sets_witness :
    (∀ c, c ∈ (mkInfo "1.2.3" "main" [1, 2, 3]).Channels ↔
      c ∈ (mkInfo "1.2.3" "main" [3, 3, 2, 1]).Channels) ∧
    (∀ c, c ∈ (mkInfo "1.2.9" "main" [4, 5, 2]).Channels ↔
      c ∈ (mkInfo "1.2.9" "main" [2, 2, 5, 4]).Channels) ∧
    (CompatibleWith (mkInfo "1.2.3" "main" [1, 2, 3]) (mkInfo "1.2.9" "main" [4, 5, 2])
        = .ok () ↔
      CompatibleWith (mkInfo "1.2.3" "main" [3, 3, 2, 1]) (mkInfo "1.2.9" "main" [2, 2, 5, 4])
        = .ok ()) ∧
    CompatibleWith (mkInfo "1.2.3" "main" [1, 2, 3]) (mkInfo "1.2.9" "main" [4, 5, 2])
      = .ok () :=
  have h1 : ∀ c, c ∈ (mkInfo "1.2.3" "main" [1, 2, 3]).Channels ↔
      c ∈ (mkInfo "1.2.3" "main" [3, 3, 2, 1]).Channels := by
    intro c
    simp only [mkInfo, List.mem_cons, List.not_mem_nil, or_false]
    constructor
    · rintro (h | h | h) <;> simp [h]
    · rintro (h | h | h | h) <;> simp [h]
  have h2 : ∀ c, c ∈ (mkInfo "1.2.9" "main" [4, 5, 2]).Channels ↔
      c ∈ (mkInfo "1.2.9" "main" [2, 2, 5, 4]).Channels := by
    intro c
    simp only [mkInfo, List.mem_cons, List.not_mem_nil, or_false]
    constructor
    · rintro (h | h | h) <;> simp [h]
    · rintro (h | h | h | h) <;> simp [h]
  ⟨h1, h2,
    CompatibleWith_channels_as_sets (mkInfo "1.2.3" "main" [1, 2, 3])
      (mkInfo "1.2.3" "main" [3, 3, 2, 1]) (mkInfo "1.2.9" "main" [4, 5, 2])
      (mkInfo "1.2.9" "main" [2, 2, 5, 4]) rfl rfl rfl rfl h1 h2,
    rfl⟩

/-- C13: the check is not symmetric.  There are descriptors `A` and `B` with
the same well-formed version and the same network, `A` with an empty channel
list and `B` with a non-empty one, such that `A.CompatibleWith(B)` returns no
error while `B.CompatibleWith(A)` returns the no-common-channels error. -/
theorem CompatibleWith_not_symmetric :
    ∃ A B : NodeInfo Unit,
      A.Channels = [] ∧ B.Channels ≠ [] ∧
      A.Version = B.Version ∧ (splitByte dot A.Version).length = 3 ∧
      A.Network = B.Network ∧
      CompatibleWith A B = .ok () ∧
      CompatibleWith B A = .error (.noCommonChannels B.Channels A.Channels) :=
  ⟨mkInfo "1.2.3" "main" [], mkInfo "1.2.3" "main" [1, 2, 3],
    rfl, by decide, rfl, by decide, rfl, rfl, rfl⟩

/-- C17: the decision depends only on `Version`, `Network` and `Channels`.
Replacing `PubKey`, `Moniker`, `RemoteAddr`, `ListenAddr` and `Other` of the
local and of the remote descriptor by arbitrary values leaves the result of the
check unchanged: the same success or the same error with the same reported
values. -/
theorem CompatibleWith_other_fields_ignored {K : Type} (l r : NodeInfo K)
    (pk pk2 : K) (moniker remoteAddr listenAddr moniker2 remoteAddr2 listenAddr2 : GoString)
    (other other2 : List GoString) :
    CompatibleWith
        { l with
          PubKey := pk, Moniker := moniker, RemoteAddr := remoteAddr,
          ListenAddr := listenAddr, Other := other }
        { r with
          PubKey := pk2, Moniker := moniker2, RemoteAddr := remoteAddr2,
          ListenAddr := listenAddr2, Other := other2 }
      = CompatibleWith l r := by
  unfold CompatibleWith
  rfl

/-- C18: the asymmetry is confined to an empty local channel list.  If
`A.CompatibleWith(B)` returns no error and `A.Channels` is non-empty, then
`B.CompatibleWith(A)` returns no error as well. -/
theorem CompatibleWith_symm_of_channels {K : Type} (A B : NodeInfo K)
    (h : CompatibleWith A B = .ok ()) (hc : A.Channels ≠ []) :
    CompatibleWith B A = .ok () := by
  rw [compatible_iff] at h ⊢
  obtain ⟨hA, hB, h0, h1, hn, hch⟩ := h
  refine ⟨hB, hA, h0.symm, h1.symm, hn.symm, Or.inr ?_⟩
  rcases hch with hnil | ⟨c, hcA, hcB⟩
  · exact absurd hnil hc
  · exact ⟨c, hcB, hcA⟩

theorem CompatibleWith_symm_of_channels_witness :
    CompatibleWith (mkInfo "1.2.3" "main" [1, 2, 3]) (mkInfo "1.2.9" "main" [4, 5, 2])
      = .ok () ∧
    (mkInfo "1.2.3" "main" [1, 2, 3]).Channels ≠ [] ∧
    CompatibleWith (mkInfo "1.2.9" "main" [4, 5, 2]) (mkInfo "1.2.3" "main" [1, 2, 3])
      = .ok () :=
  ⟨rfl, by decide,
    CompatibleWith_symm_of_channels (mkInfo "1.2.3" "main" [1, 2, 3])
      (mkInfo "1.2.9" "main" [4, 5, 2]) rfl (by decide)⟩

/-- C19: `splitVersion` succeeds exactly on the strings that contain exactly
two "." bytes; when it succeeds with `(major, minor, patch)`, none of the three
contains a "." and `major ++ "." ++ minor ++ "." ++ patch` is the input; when
it fails, the error carries the input unchanged. -/
theorem splitVersion_spec (v : GoString) :
    ((∃ parts, splitVersion v = .ok parts) ↔ v.count dot = 2) ∧
    (∀ major minor patch, splitVersion v = .ok (major, minor, patch) →
      dot ∉ major ∧ dot ∉ minor ∧ dot ∉ patch ∧
      major ++ [dot] ++ minor ++ [dot] ++ patch = v) ∧
    (∀ e, splitVersion v = .error e → e = .invalidVersionFormat v) := by
  have hlen := splitByte_length dot v
  refine ⟨⟨?_, ?_⟩, ?_, ?_⟩
  · rintro ⟨⟨a, b, c⟩, h⟩
    have hs := splitByte_of_splitVersion v a b c h
    rw [hs] at hlen
    simp only [List.length_cons, List.length_nil] at hlen
    omega
  · intro hcount
    have h3 : (splitByte dot v).length = 3 := by rw [hlen, hcount]
    obtain ⟨a, b, c, hs⟩ := length_three _ h3
    exact ⟨(a, b, c), splitVersion_of_three v a b c hs⟩
  · intro a b c h
    have hs := splitByte_of_splitVersion v a b c h
    have hfree := splitByte_parts_sep_free dot v
    rw [hs] at hfree
    refine ⟨hfree a (by simp), hfree b (by simp), hfree c (by simp), ?_⟩
    rw [eq_of_splitByte_three v a b c hs]
    simp
  · intro e h
    by_cases h3 : (splitByte dot v).length = 3
    · obtain ⟨a, b, c, hs⟩ := length_three _ h3
      rw [splitVersion_of_three v a b c hs] at h
      simp at h
    · rw [splitVersion_of_length_ne v h3] at h
      simp only [Except.error.injEq] at h
      exact h.symm

/-! ## Lemmas on the listen address -/

theorem last_eq_none (s : GoString) (b : Byte) (h : b ∉ s) : last s b = none := by
  induction s with
  | nil => rfl
  | cons c cs ih =>
    have hc : c ≠ b := fun e => h (by simp [e])
    have hcs : b ∉ cs := fun e => h (by simp [e])
    simp [last, ih hcs, hc]

theorem mem_of_last_eq_some (s : GoString) (b : Byte) (i : Nat) (h : last s b = some i) :
    b ∈ s := by
  by_contra hb
  rw [last_eq_none s b hb] at h
  simp at h

/-- The last separator of `h ++ b :: p`, with `p` free of `b`, is at `h.length`. -/
theorem last_append_sep (h p : GoString) (b : Byte) (hp : b ∉ p) :
    last (h ++ b :: p) b = some h.length := by
  induction h with
  | nil => simp [last, last_eq_none p b hp]
  | cons c cs ih => simp [last, ih]

theorem byteIndex_eq_none (s : GoString) (b : Byte) (h : b ∉ s) : byteIndex s b = none := by
  induction s with
  | nil => rfl
  | cons c cs ih =>
    have hc : c ≠ b := fun e => h (by simp [e])
    have hcs : b ∉ cs := fun e => h (by simp [e])
    simp [byteIndex, ih hcs, hc]

theorem byteIndex_isSome (s : GoString) (b : Byte) (h : b ∈ s) :
    (byteIndex s b).isSome = true := by
  induction s with
  | nil => simp at h
  | cons c cs ih =>
    by_cases hc : c = b
    · simp [byteIndex, hc]
    · have hcs : b ∈ cs := by
        rcases List.mem_cons.mp h with e | e
        · exact absurd e.symm hc
        · exact e
      have := ih hcs
      simp [byteIndex, hc, this]

/-- An address without a colon is not split. -/
theorem SplitHostPort_no_colon (hostport : GoString) (h : colon ∉ hostport) :
    SplitHostPort hostport = addrErr hostport .missingPort := by
  simp [SplitHostPort, last_eq_none hostport colon h]

/-- An unbracketed `host:port` is split at its colon. -/
theorem SplitHostPort_host_port (host port : GoString)
    (h1 : colon ∉ host) (h2 : lbracket ∉ host) (h3 : rbracket ∉ host)
    (h4 : colon ∉ port) (h5 : lbracket ∉ port) (h6 : rbracket ∉ port) :
    SplitHostPort (host ++ colon :: port) = (host, port, none) := by
  have hhead : (host ++ colon :: port).head? ≠ some lbracket := by
    cases host with
    | nil => simp [colon, lbracket]
    | cons c cs =>
      intro e
      simp only [List.cons_append, List.head?_cons, Option.some.injEq] at e
      exact h2 (by simp [e])
  have hl : lbracket ∉ host ++ colon :: port := by
    simp only [List.mem_append, List.mem_cons, not_or]
    exact ⟨h2, by decide, h5⟩
  have hr : rbracket ∉ host ++ colon :: port := by
    simp only [List.mem_append, List.mem_cons, not_or]
    exact ⟨h3, by decide, h6⟩
  simp only [SplitHostPort, last_append_sep host port colon h4, if_neg hhead,
    List.take_left, byteIndex_eq_none host colon h1, splitHostPortCheck, List.drop_zero,
    byteIndex_eq_none _ lbracket hl, byteIndex_eq_none _ rbracket hr]
  simp

theorem not_mem_of_digits (s : GoString) (b : Byte) (hb : isDigit b = false)
    (hd : ∀ c ∈ s, isDigit c = true) : b ∉ s := by
  intro h
  have := hd b h
  rw [hb] at this
  exact Bool.false_ne_true this

/-- On decimal digits the digit loop computes the decimal value. -/
theorem parseDigits_eq (s : GoString) (n : Nat) (hd : ∀ c ∈ s, isDigit c = true) :
    parseDigits s n = some (n * 10 ^ s.length + decimalValue s) := by
  induction s generalizing n with
  | nil => simp [parseDigits, decimalValue]
  | cons c cs ih =>
    have hc : isDigit c = true := hd c (by simp)
    have hcs : ∀ x ∈ cs, isDigit x = true := fun x hx => hd x (by simp [hx])
    simp only [parseDigits, hc, if_true, ih _ hcs, decimalValue, List.reverse_cons,
      List.map_append, List.map_cons, List.map_nil, Nat.ofDigits_append, Nat.ofDigits_singleton,
      List.length_map, List.length_reverse, List.length_cons, Option.some.injEq]
    ring

/-- On a non-empty string of decimal digits whose value fits, `Atoi` returns the
value. -/
theorem Atoi_digits (intSize : Nat) (s : GoString) (hne : s ≠ [])
    (hd : ∀ c ∈ s, isDigit c = true) (hfit : decimalValue s < 2 ^ (intSize - 1)) :
    Atoi intSize s = some (decimalValue s : Int) := by
  cases s with
  | nil => exact absurd rfl hne
  | cons c cs =>
    have hc : isDigit c = true := hd c (by simp)
    have hplus : c ≠ plus := fun e => by rw [e] at hc; exact absurd hc (by decide)
    have hminus : c ≠ minus := fun e => by rw [e] at hc; exact absurd hc (by decide)
    have hp := parseDigits_eq (c :: cs) 0 hd
    simp only [Nat.zero_mul, Nat.zero_add] at hp
    simp only [Atoi, hplus, hminus, or_self, if_false, hp, decide_False, Bool.not_false,
      Bool.true_and, Bool.false_and, decide_eq_true_eq, Nat.not_le.mpr hfit]
    simp

theorem last_append_sep_ge (u z : GoString) (b : Byte) :
    ∃ i, last (u ++ b :: z) b = some i ∧ u.length ≤ i := by
  induction u with
  | nil =>
    cases hz : last z b with
    | none => exact ⟨0, by simp [last, hz], Nat.le_refl _⟩
    | some k => exact ⟨k + 1, by simp [last, hz], Nat.zero_le _⟩
  | cons c cs ih =>
    obtain ⟨i, hi, hle⟩ := ih
    exact ⟨i + 1, by simp [last, hi], by simpa using hle⟩

/-- An unbracketed address with two colons is not split. -/
theorem SplitHostPort_two_colons (x y z : GoString)
    (hhead : (x ++ colon :: (y ++ colon :: z)).head? ≠ some lbracket) :
    SplitHostPort (x ++ colon :: (y ++ colon :: z))
      = addrErr (x ++ colon :: (y ++ colon :: z)) .tooManyColons := by
  obtain ⟨i, hi, hle⟩ := last_append_sep_ge (x ++ colon :: y) z colon
  rw [List.append_assoc, List.cons_append] at hi
  have hlen : x.length + 1 ≤ i := by
    simp only [List.length_append, List.length_cons] at hle
    omega
  have hmem : colon ∈ (x ++ colon :: (y ++ colon :: z)).take i := by
    obtain ⟨k, rfl⟩ : ∃ k, i = x.length + (k + 1) := ⟨i - x.length - 1, by omega⟩
    rw [List.take_append]
    simp
  simp only [SplitHostPort, hi, if_neg hhead, byteIndex_isSome _ colon hmem, if_true]

/-- When `SplitHostPort` reports an error, host and port are empty. -/
theorem SplitHostPort_error (hostport : GoString)
    (h : (SplitHostPort hostport).2.2 ≠ none) :
    (SplitHostPort hostport).1 = [] ∧ (SplitHostPort hostport).2.1 = [] := by
  revert h
  simp only [SplitHostPort, splitHostPortCheck, addrErr]
  intro h
  repeat' split
  all_goals first
    | exact ⟨rfl, rfl⟩
    | (exfalso; revert h; simp_all)

theorem Atoi_nonneg (intSize : Nat) (s : GoString) (n : Int)
    (h : Atoi intSize s = some n) (hs : s.head? ≠ some minus) : 0 ≤ n := by
  cases s with
  | nil => simp [Atoi] at h
  | cons c cs =>
    have hc : c ≠ minus := fun e => hs (by simp [e])
    simp only [Atoi, hc, decide_False, or_false] at h
    generalize (if c = plus then cs else c :: cs) = body at h
    by_cases hb : body = []
    · simp [hb] at h
    · cases hp : parseDigits body 0 with
      | none => simp [hb, hp] at h
      | some un =>
        by_cases hcut : 2 ^ (intSize - 1) ≤ un
        · simp [hb, hp, hcut] at h
        · simp [hb, hp, hcut] at h
          rw [← h]
          exact Int.ofNat_nonneg _

/-! ## Properties of `ListenHost` and `ListenPort` -/

/-- C14: for a listen address `host ++ ":" ++ port` where `host` contains no
':' and no '[' or ']' and `port` is a non-empty string of decimal digits whose
value fits in an `int`, `ListenHost` returns `host` and `ListenPort` returns
the integer value of `port`. -/
theorem ListenHost_ListenPort_host_port {K : Type} (intSize : Nat) (info : NodeInfo K)
    (host port : GoString)
    (haddr : info.ListenAddr = host ++ [colon] ++ port)
    (hcolon : colon ∉ host) (hlb : lbracket ∉ host) (hrb : rbracket ∉ host)
    (hne : port ≠ []) (hdig : ∀ c ∈ port, isDigit c = true)
    (hfit : decimalValue port < 2 ^ (intSize - 1)) :
    ListenHost info = host ∧ ListenPort intSize info = (decimalValue port : Int) := by
  have hsplit : SplitHostPort info.ListenAddr = (host, port, none) := by
    rw [haddr, List.append_assoc, List.singleton_append]
    exact SplitHostPort_host_port host port hcolon hlb hrb
      (not_mem_of_digits port colon (by decide) hdig)
      (not_mem_of_digits port lbracket (by decide) hdig)
      (not_mem_of_digits port rbracket (by decide) hdig)
  constructor
  · simp only [ListenHost, hsplit]
  · simp only [ListenPort, hsplit, Atoi_digits intSize port hne hdig hfit]

theorem ListenHost_ListenPort_host_port_witness :
    (mkListen "10.0.0.1:26656").ListenAddr = ascii "10.0.0.1" ++ [colon] ++ ascii "26656" ∧
    (colon ∉ ascii "10.0.0.1" ∧ lbracket ∉ ascii "10.0.0.1" ∧ rbracket ∉ ascii "10.0.0.1") ∧
    ascii "26656" ≠ [] ∧ (∀ c ∈ ascii "26656", isDigit c = true) ∧
    decimalValue (ascii "26656") < 2 ^ (64 - 1) ∧
    decimalValue (ascii "26656") = 26656 ∧
    ListenHost (mkListen "10.0.0.1:26656") = ascii "10.0.0.1" ∧
    ListenPort 64 (mkListen "10.0.0.1:26656") = (decimalValue (ascii "26656") : Int) :=
  have hval : decimalValue (ascii "26656") = 26656 := by decide
  have hfit : decimalValue (ascii "26656") < 2 ^ (64 - 1) := by
    rw [hval]
    norm_num
  have hdig : ∀ c ∈ ascii "26656", isDigit c = true :=
    List.all_eq_true.mp (by decide)
  ⟨by decide, by decide, by decide, hdig, hfit, hval,
    ListenHost_ListenPort_host_port 64 (mkListen "10.0.0.1:26656")
      (ascii "10.0.0.1") (ascii "26656")
      (by decide) (by decide) (by decide) (by decide) (by decide) hdig hfit⟩

/-- C15: when the listen address cannot be split into host and port,
`ListenHost` returns the empty string and `ListenPort` returns -1; this is the
case for every address without a ':' and for every unbracketed address with
two or more colons.  When the address does split but its port part is not
parseable as an integer, `ListenPort` returns -1.  Both accessors are total:
they return a string and an integer, never an error. -/
theorem Listen_unknown {K : Type} (intSize : Nat) (info : NodeInfo K) :
    ((SplitHostPort info.ListenAddr).2.2 ≠ none →
      ListenHost info = [] ∧ ListenPort intSize info = -1) ∧
    ((SplitHostPort info.ListenAddr).2.2 = none →
      Atoi intSize (SplitHostPort info.ListenAddr).2.1 = none →
      ListenPort intSize info = -1) ∧
    (colon ∉ info.ListenAddr → (SplitHostPort info.ListenAddr).2.2 ≠ none) ∧
    (∀ x y z, info.ListenAddr = x ++ [colon] ++ y ++ [colon] ++ z →
      info.ListenAddr.head? ≠ some lbracket →
      (SplitHostPort info.ListenAddr).2.2 ≠ none) := by
  refine ⟨?_, ?_, ?_, ?_⟩
  · intro h
    obtain ⟨hhost, hport⟩ := SplitHostPort_error info.ListenAddr h
    refine ⟨hhost, ?_⟩
    simp only [ListenPort, hport]
    rfl
  · intro _ h
    simp only [ListenPort, h]
  · intro h
    rw [SplitHostPort_no_colon _ h]
    simp [addrErr]
  · intro x y z haddr hhead
    have he : info.ListenAddr = x ++ colon :: (y ++ colon :: z) := by
      rw [haddr]
      simp
    rw [he] at hhead ⊢
    rw [SplitHostPort_two_colons x y z hhead]
    simp [addrErr]

theorem Listen_unknown_witness :
    (colon ∉ (mkListen "not-an-address").ListenAddr ∧
      ListenHost (mkListen "not-an-address") = [] ∧
      ListenPort 64 (mkListen "not-an-address") = -1) ∧
    ((mkListen "a:b:80").ListenAddr = ascii "a" ++ [colon] ++ ascii "b" ++ [colon] ++ ascii "80" ∧
      ListenHost (mkListen "a:b:80") = [] ∧ ListenPort 64 (mkListen "a:b:80") = -1) ∧
    ((SplitHostPort (mkListen "host:http").ListenAddr).2.2 = none ∧
      Atoi 64 (SplitHostPort (mkListen "host:http").ListenAddr).2.1 = none ∧
      ListenPort 64 (mkListen "host:http") = -1) :=
  ⟨⟨by decide,
      (Listen_unknown 64 (mkListen "not-an-address")).1
        ((Listen_unknown 64 (mkListen "not-an-address")).2.2.1 (by decide))⟩,
    ⟨by decide,
      (Listen_unknown 64 (mkListen "a:b:80")).1
        ((Listen_unknown 64 (mkListen "a:b:80")).2.2.2 (ascii "a") (ascii "b") (ascii "80")
          (by decide) (by decide))⟩,
    ⟨by decide, by decide,
      (Listen_unknown 64 (mkListen "host:http")).2.1 (by decide) (by decide)⟩⟩

/-- C16, as the claim states it, fails: the address "h:-1" splits into host "h"
and port "-1", the port parses as the integer -1, and `ListenPort` returns
-1 although neither splitting nor parsing failed. -/
theorem ListenPort_minus_one_parsed :
    SplitHostPort (mkListen "h:-1").ListenAddr = (ascii "h", ascii "-1", none) ∧
    Atoi 64 (ascii "-1") = some (-1) ∧
    ListenPort 64 (mkListen "h:-1") = -1 ∧
    Atoi 32 (ascii "-1") = some (-1) ∧
    ListenPort 32 (mkListen "h:-1") = -1 := by
  decide

/-- C16, amended: `ListenPort` returns -1 only if splitting the address
failed, or the port part failed to parse as an integer, or the port part
parses to the integer -1 itself.  Whenever parsing succeeds the returned value
is the parsed integer; when splitting succeeded too and the port part does not
start with '-', the returned value is not negative, hence different from -1. -/
theorem ListenPort_sentinel {K : Type} (intSize : Nat) (info : NodeInfo K) :
    (ListenPort intSize info = -1 →
      (SplitHostPort info.ListenAddr).2.2 ≠ none ∨
      Atoi intSize (SplitHostPort info.ListenAddr).2.1 = none ∨
      Atoi intSize (SplitHostPort info.ListenAddr).2.1 = some (-1)) ∧
    (∀ n, Atoi intSize (SplitHostPort info.ListenAddr).2.1 = some n →
      ListenPort intSize info = n) ∧
    (∀ n, (SplitHostPort info.ListenAddr).2.2 = none →
      Atoi intSize (SplitHostPort info.ListenAddr).2.1 = some n →
      (SplitHostPort info.ListenAddr).2.1.head? ≠ some minus →
      0 ≤ ListenPort intSize info ∧ ListenPort intSize info ≠ -1) := by
  refine ⟨?_, ?_, ?_⟩
  · intro h
    cases hp : Atoi intSize (SplitHostPort info.ListenAddr).2.1 with
    | none => exact Or.inr (Or.inl rfl)
    | some n =>
      simp only [ListenPort, hp] at h
      exact Or.inr (Or.inr (by rw [h]))
  · intro n hn
    simp only [ListenPort, hn]
  · intro n _ hn hhead
    have h0 := Atoi_nonneg intSize _ n hn hhead
    simp only [ListenPort, hn]
    exact ⟨h0, by omega⟩

theorem ListenPort_sentinel_witness :
    (ListenPort 64 (mkListen "h:-01") = -1 ∧
      Atoi 64 (SplitHostPort (mkListen "h:-01").ListenAddr).2.1 = some (-1)) ∧
    ListenPort 64 (mkListen "10.0.0.1:26656") = 26656 ∧
    (0 ≤ ListenPort 64 (mkListen "10.0.0.1:26656") ∧
      ListenPort 64 (mkListen "10.0.0.1:26656") ≠ -1) :=
  ⟨⟨by decide, by decide⟩,
    (ListenPort_sentinel 64 (mkListen "10.0.0.1:26656")).2.1 26656 (by decide),
    (ListenPort_sentinel 64 (mkListen "10.0.0.1:26656")).2.2 26656
      (by decide) (by decide) (by decide)⟩

end P2P
